import Mathlib

/-!
# Verification of `grpc/server.go`

A shallow embedding of the gRPC server lifecycle manager (`Server.Start`,
`Server.Stop`, the start options) and of the pool-worker interceptor.

The Go code is stateful and talks to external collaborators (the gRPC runtime,
`net`, the worker-pool library, the logger).  The embedding passes the state
explicitly as a `World`: the fields of the `Server` struct, the allocation
counter of worker pools, and the ordered record (`trace`) of every call made to
a collaborator.  What a collaborator answers is not decided by `server.go`; it
is taken from an `Env` of answer functions, so that every theorem holds for
every behaviour of the collaborators.
-/

namespace Grpc

/-! ## Values -/

/-- Go `error` values that are not nil.  `new`, `wrap` and `errorf` are the three
constructions used in `server.go` (`errors.New`, `errors.Wrap`, `errors.Errorf`
with its two arguments); `ext` stands for an error produced by a collaborator. -/
inductive Error where
  | new (msg : String)
  | wrap (cause : Error) (msg : String)
  | errorf (format : String) (url : String) (cause : Error)
  | ext (code : Nat)
  deriving DecidableEq, Repr

/-- How a Go call of type `func(...) error` ends: it returns nil, returns an
error, or does not return because of a run-time panic (nil dereference). -/
inductive Outcome where
  | ok
  | fail (e : Error)
  | panic
  deriving DecidableEq, Repr

/-- Struct `ServerConfig`. -/
structure ServerConfig where
  Host : String
  Port : Int
  EnableServiceDiscovery : Bool
  ReadTimeout : Int
  deriving DecidableEq, Repr

/-- Constant `serverHost`, the default host. -/
def serverHost : String := "0.0.0.0"

/-- Constant `serverPort`, the default port. -/
def serverPort : Int := 10000

/-- Constant `enableServiceDisconvery`, the default of service discovery. -/
def enableServiceDisconvery : Bool := false

/-- Constant `readTimeout`, the default read timeout in milliseconds. -/
def readTimeout : Int := 500

/-- A bound `net.Listener`, identified by the address it listens on. -/
structure Listener where
  addr : String
  deriving DecidableEq, Repr

/-- The part of `trace.Client` used by `server.go`: its `Tracer` handle. -/
structure TraceClient where
  Tracer : Nat
  deriving DecidableEq, Repr

/-- A `*pool.Worker`: worker pools live on the heap and are named by the order
of their allocation. -/
abbrev WorkerRef := Nat

/-- The two `g.ServerOption` values `server.go` builds, both of them
`g.UnaryInterceptor(...)`: the open-tracing interceptor of a tracer, and the
pool-worker interceptor closure, which is determined by the worker pool it
captured. -/
inductive ServerOption where
  | unaryTracing (tracer : Nat)
  | unaryPoolWorker (workerPool : WorkerRef)
  deriving DecidableEq, Repr

/-- The state of a `*g.Server` that `server.go` can influence: the options it
was created with, the services registered on it, whether reflection is
registered. -/
structure GServer where
  opts : List ServerOption
  services : List String
  reflection : Bool
  deriving DecidableEq, Repr

/-- Whether a server option is a `g.UnaryInterceptor(...)`.  Both kinds of option
built by `server.go` are. -/
def ServerOption.isUnaryInterceptor : ServerOption → Bool
  | .unaryTracing _ => true
  | .unaryPoolWorker _ => true

/-- Function `g.NewServer(opts...)`.  gRPC applies the options in order and a
server has one unary interceptor: applying a second `g.UnaryInterceptor`
panics ("The unary server interceptor was already set and may not be reset.").
The result `none` is that panic. -/
def NewServer (opts : List ServerOption) : Option GServer :=
  if (opts.filter ServerOption.isUnaryInterceptor).length ≤ 1 then
    some { opts := opts, services := [], reflection := false }
  else none

/-- Struct `Server`.  Nil pointers and nil interfaces are `none`.  The `Logger`
field is left out: the logger is treated as a sink that is always there, and
what is logged is recorded in the trace. -/
structure Server where
  Config : Option ServerConfig
  Conn : Option Listener
  S : Option GServer
  TraceClient : Option TraceClient
  ServerOptions : List ServerOption
  WorkerPools : List WorkerRef
  deriving DecidableEq, Repr

/-- Request and response payloads (values of the empty interface). -/
abbrev Payload := Nat

/-- A `context.Context`. -/
abbrev Context := Nat

/-- Modelled from the spec: struct `JobResult`, declared outside `server.go`: a
response payload and a failure.  The fields are the two the interceptor reads,
`result.resp` and `result.err`, each of which may be nil in Go. -/
structure JobResult where
  resp : Option Payload
  err : Option Error
  deriving DecidableEq, Repr

/-- A call made by `server.go` to one of its collaborators. -/
inductive Event where
  | newServer (opts : List ServerOption)
  | reflectionRegister
  | listen (url : String)
  | serve (l : Listener)
  | logStarted (host : String) (port : Int) (discovery : Bool)
  | gStop
  | connClose (l : Listener)
  | createWorker
  | poolStart (workerPool : WorkerRef) (maxWorkers : Int)
  | poolStop (workerPool : WorkerRef)
  | queueJob (workerPool : WorkerRef) (name : String) (timeout : Int)
  | recvResult
  | logResult (result : JobResult)
  deriving DecidableEq, Repr

/-- The state the code runs in. -/
structure World where
  srv : Server
  nextPool : Nat
  trace : List Event
  deriving DecidableEq, Repr

/-- Record one call to a collaborator. -/
def World.emit (w : World) (e : Event) : World :=
  { w with trace := w.trace ++ [e] }

/-- Type `StartServerOptions` (`func() error`): a closure over the server. -/
abbrev StartServerOptions := World → Outcome × World

/-- Type `RegisterService` (`func(*g.Server) error`): it acts on the gRPC
server it is handed. -/
abbrev RegisterService := GServer → Outcome × GServer

/-- Type `g.UnaryHandler`: context and request to response and error. -/
abbrev UnaryHandler := Context → Payload → JobResult

/-- Struct `g.UnaryServerInfo`, the field read by the interceptor. -/
structure UnaryServerInfo where
  FullMethod : String
  deriving DecidableEq, Repr

/-- Modelled from the spec: struct `JobHandler` (the Job), declared outside
`server.go`: an identifier, the context of the call, the request payload, the
handler and the result channel.  The fields are those the interceptor fills.
The channel `c` is created empty with capacity one; `none` is the empty
buffer. -/
structure JobHandler where
  name : String
  ctx : Context
  req : Payload
  handler : UnaryHandler
  c : Option JobResult

/-- How a call through an interceptor ends: it returns `(resp, err)`, it stays
blocked on the result channel, or it panics. -/
inductive CallOutcome where
  | returned (resp : Option Payload) (err : Option Error)
  | blocked
  | panicked
  deriving DecidableEq, Repr

/-- The answers of the collaborators, which `server.go` does not decide.
Each answer may depend on the whole state at the time of the call.

* `StringTags`, `GetURL`: the helpers of package `library`;
* `listen`: result of `net.Listen("tcp", url)`;
* `close`: result of `Close()` on a listener;
* `createWorker`: error of `pool.CreateWorker()`, `none` when a pool is made;
* `startServer`: error of `StartServer` on a pool with a worker maximum;
* `queueJob`: result of `QueueJob(job, timeout)`: the error, or else the value
  that the pool delivers on the channel of the job (`none`: it never does). -/
structure Env where
  StringTags : List String → String
  GetURL : String → Int → String
  listen : World → String → Except Error Listener
  close : World → Listener → Option Error
  createWorker : World → Option Error
  startServer : World → WorkerRef → Int → Option Error
  queueJob : World → WorkerRef → JobHandler → Int → Except Error (Option JobResult)

/-! ## The start options -/

/-- Method `Server.SetServiceDiscoveryOption`: the returned closure.  Writing
through a nil `Config` panics. -/
def Server.SetServiceDiscoveryOption (val : Bool) : StartServerOptions := fun w =>
  match w.srv.Config with
  | none => (.panic, w)
  | some cfg =>
    (.ok, { w with srv := { w.srv with Config := some { cfg with EnableServiceDiscovery := val } } })

/-- Method `Server.SetTracerOption`: the returned closure.  A nil tracer is
`none`. -/
def Server.SetTracerOption (tracer : Option Grpc.TraceClient) : StartServerOptions := fun w =>
  (.ok, { w with srv := { w.srv with TraceClient := tracer } })

/-- Method `Server.SetMiddlewareTracerOption`: the returned closure.  Calling the
method only builds this closure; `s.TraceClient` is read when the closure
runs. -/
def Server.SetMiddlewareTracerOption : StartServerOptions := fun w =>
  match w.srv.TraceClient with
  | none => (.fail (Error.new "option SetTracerOption must be set first"), w)
  | some tc =>
    let serverOption := ServerOption.unaryTracing tc.Tracer
    (.ok, { w with srv := { w.srv with ServerOptions := w.srv.ServerOptions ++ [serverOption] } })

/-- Method `Server.SetMiddlewareTracerOption`, the call itself, as in
`op := s.SetMiddlewareTracerOption()`.  The body of the method is the single
statement `return func() error ...` and its only result is the closure: the
call reads no field of the server, writes none, calls no collaborator and has
no error to report.  It yields the closure and the state as it was. -/
def Server.SetMiddlewareTracerOption.call (w : World) : StartServerOptions × World :=
  (Server.SetMiddlewareTracerOption, w)

/-- Modelled from the spec: `pool.CreateWorker` (package `pool` is not among the
sources) creates an unstarted pool, and each pool is independent of the others:
a successful call allocates a new worker, distinct from every earlier one.
Whether the call succeeds is the answer `env.createWorker`. -/
def CreateWorker (env : Env) (w : World) : Except Error WorkerRef × World :=
  match env.createWorker w with
  | some err => (.error err, w.emit .createWorker)
  | none => (.ok w.nextPool, { w.emit .createWorker with nextPool := w.nextPool + 1 })

/-- Method `Server.SetMiddlewarePoolWorkerOption`: the returned closure.  The
interceptor it installs is `ServerOption.unaryPoolWorker workerPool`, whose
behaviour is `interceptor` below. -/
def Server.SetMiddlewarePoolWorkerOption (env : Env) (maxWorkers : Int) :
    StartServerOptions := fun w =>
  match CreateWorker env w with
  | (.error err, w1) => (.fail err, w1)
  | (.ok workerPool, w1) =>
    match env.startServer w1 workerPool maxWorkers with
    | some err => (.fail err, w1.emit (.poolStart workerPool maxWorkers))
    | none =>
      let w2 := w1.emit (.poolStart workerPool maxWorkers)
      let w3 := { w2 with srv := { w2.srv with WorkerPools := w2.srv.WorkerPools ++ [workerPool] } }
      let serverOption := ServerOption.unaryPoolWorker workerPool
      (.ok, { w3 with srv := { w3.srv with ServerOptions := w3.srv.ServerOptions ++ [serverOption] } })

/-! ## The pool-worker interceptor -/

/-- Conversion `time.Duration(n) * time.Millisecond`: a product of 64-bit signed
integers, in nanoseconds, wrapping on overflow. -/
def millis (n : Int) : Int :=
  (n * 1000000 + 2 ^ 63) % 2 ^ 64 - 2 ^ 63

/-- The interceptor closure built by `SetMiddlewarePoolWorkerOption` for the
pool `workerPool`.  It reads `s.Config.ReadTimeout` when it runs. -/
def interceptor (env : Env) (workerPool : WorkerRef) (ctx : Context) (req : Payload)
    (info : UnaryServerInfo) (handler : UnaryHandler) (w : World) : CallOutcome × World :=
  let job : JobHandler :=
    { name := "interceptor" ++ info.FullMethod, ctx := ctx, req := req, handler := handler,
      c := none }
  match w.srv.Config with
  | none => (.panicked, w)
  | some cfg =>
    let timeout := millis cfg.ReadTimeout
    let w1 := w.emit (.queueJob workerPool job.name timeout)
    match env.queueJob w workerPool job timeout with
    | .error err =>
      (.returned none (some (Error.wrap err (env.StringTags ["pool worker middleware"]))), w1)
    | .ok none => (.blocked, w1.emit .recvResult)
    | .ok (some result) =>
      (.returned result.resp result.err, (w1.emit .recvResult).emit (.logResult result))

/-! ## Start and Stop -/

/-- The loop `for _, op := range options` of `Start`: run the options in order
and stop at the first one that does not return nil.  The error is returned as
the option gave it; `Start` wraps it. -/
def runOptions : List StartServerOptions → World → Outcome × World
  | [], w => (.ok, w)
  | op :: rest, w =>
    match op w with
    | (.ok, w1) => runOptions rest w1
    | (.fail e, w1) => (.fail e, w1)
    | (.panic, w1) => (.panic, w1)

/-- The loop `for _, srv := range services` of `Start`, on the server `s.S`. -/
def registerServices : List RegisterService → GServer → Outcome × GServer
  | [], g => (.ok, g)
  | srv :: rest, g =>
    match srv g with
    | (.ok, g1) => registerServices rest g1
    | (.fail e, g1) => (.fail e, g1)
    | (.panic, g1) => (.panic, g1)

/-- Method `Server.Start`. -/
def Server.Start (env : Env) (services : List RegisterService)
    (options : List StartServerOptions) (w : World) : Outcome × World :=
  match w.srv.Config with
  | none => (.fail (Error.new (env.StringTags ["start server", "config not found"])), w)
  | some _ =>
    match runOptions options w with
    | (.fail e, w1) =>
      (.fail (Error.wrap e (env.StringTags ["start server", "option error"])), w1)
    | (.panic, w1) => (.panic, w1)
    | (.ok, w1) =>
      let w2 := w1.emit (.newServer w1.srv.ServerOptions)
      match NewServer w1.srv.ServerOptions with
      | none => (.panic, w2)
      | some g0 =>
        match registerServices services g0 with
        | (.fail e, g1) =>
          (.fail (Error.wrap e (env.StringTags ["start server", "register service error"])),
            { w2 with srv := { w2.srv with S := some g1 } })
        | (.panic, g1) => (.panic, { w2 with srv := { w2.srv with S := some g1 } })
        | (.ok, g1) =>
          let w3 := { w2 with srv := { w2.srv with S := some g1 } }
          match w3.srv.Config with
          | none => (.panic, w3)
          | some cfg =>
            let w4 :=
              if cfg.EnableServiceDiscovery then
                { w3.emit .reflectionRegister with
                  srv := { w3.srv with S := some { g1 with reflection := true } } }
              else w3
            let url := env.GetURL cfg.Host cfg.Port
            let w5 := w4.emit (.listen url)
            match env.listen w4 url with
            | .error err =>
              (.fail (Error.errorf "[%s]failed to listen grpc: %v" url err),
                { w5 with srv := { w5.srv with Conn := none } })
            | .ok l =>
              let w6 := { w5 with srv := { w5.srv with Conn := some l } }
              let w7 := w6.emit (.serve l)
              (.ok, w7.emit (.logStarted cfg.Host cfg.Port cfg.EnableServiceDiscovery))

/-- The loop `for _, workerPool := range s.WorkerPools` of `Stop`. -/
def stopWorkerPools : List WorkerRef → World → World
  | [], w => w
  | workerPool :: rest, w => stopWorkerPools rest (w.emit (.poolStop workerPool))

/-- Method `Server.Stop`. -/
def Server.Stop (env : Env) (w : World) : Option Error × World :=
  let w1 := if w.srv.S.isSome then w.emit .gStop else w
  match w1.srv.Conn with
  | some l => (env.close w1 l, w1.emit (.connClose l))
  | none => (none, stopWorkerPools w1.srv.WorkerPools w1)

/-! ## Concrete servers and collaborators, used to exhibit behaviours -/

/-- The server `CreateServer` returns when the environment overrides nothing:
the default configuration and every other field zero. -/
def createdServer : World :=
  { srv :=
      { Config := some
          { Host := serverHost, Port := serverPort,
            EnableServiceDiscovery := enableServiceDisconvery, ReadTimeout := readTimeout },
        Conn := none, S := none, TraceClient := none, ServerOptions := [], WorkerPools := [] },
    nextPool := 0,
    trace := [] }

/-- Collaborators that never fail, except that closing a listener that was
already closed reports an error, as a TCP listener does.  The pool runs the
handler of a queued job and delivers its outcome. -/
def envOk : Env :=
  { StringTags := fun tags => String.join tags,
    GetURL := fun host _ => host,
    listen := fun _ url => .ok { addr := url },
    close := fun w l => if Event.connClose l ∈ w.trace then some (Error.ext 1) else none,
    createWorker := fun _ => none,
    startServer := fun _ _ _ => none,
    queueJob := fun _ _ job _ => .ok (some (job.handler job.ctx job.req)) }

/-- Collaborators as `envOk`, but the pool refuses every job with error 7. -/
def envBusy : Env :=
  { envOk with queueJob := fun _ _ _ _ => .error (Error.ext 7) }

/-- Collaborators as `envOk`, but no worker pool can be started. -/
def envNoStart : Env :=
  { envOk with startServer := fun _ _ _ => some (Error.ext 3) }

/-- Collaborators as `envOk`, but no worker pool can be created. -/
def envNoCreate : Env :=
  { envOk with createWorker := fun _ => some (Error.ext 2) }

/-- A server with a bound listener, a running instance and one worker pool. -/
def servingWithPool : World :=
  { srv :=
      { createdServer.srv with
        Conn := some { addr := "0.0.0.0" },
        S := NewServer [ServerOption.unaryPoolWorker 0],
        ServerOptions := [ServerOption.unaryPoolWorker 0],
        WorkerPools := [0] },
    nextPool := 1,
    trace := [Event.createWorker, Event.poolStart 0 4] }

/-- A service registration that fails with error 5 and registers nothing. -/
def badService : RegisterService := fun g => (.fail (Error.ext 5), g)

/-- A service registration that registers the service of the given name. -/
def goodService (name : String) : RegisterService := fun g =>
  (.ok, { g with services := g.services ++ [name] })

/-- A handler that answers every request with the request plus one. -/
def echoHandler : UnaryHandler := fun _ req => { resp := some (req + 1), err := none }

/-- The four option constructors of `server.go` as data: which method of the
server was called, and with which argument. -/
inductive StartOption where
  | serviceDiscovery (val : Bool)
  | tracer (tracer : Option TraceClient)
  | middlewareTracer
  | middlewarePoolWorker (maxWorkers : Int)
  deriving DecidableEq, Repr

/-- The closure the constructor returns. -/
def StartOption.closure (env : Env) : StartOption → StartServerOptions
  | .serviceDiscovery val => Server.SetServiceDiscoveryOption val
  | .tracer t => Server.SetTracerOption t
  | .middlewareTracer => Server.SetMiddlewareTracerOption
  | .middlewarePoolWorker maxWorkers => Server.SetMiddlewarePoolWorkerOption env maxWorkers

/-- How many options of a list are pool-backed admission options. -/
def poolOptions : List StartOption → Nat
  | [] => 0
  | .middlewarePoolWorker _ :: rest => poolOptions rest + 1
  | .serviceDiscovery _ :: rest => poolOptions rest
  | .tracer _ :: rest => poolOptions rest
  | .middlewareTracer :: rest => poolOptions rest

/-! ## Lemmas on the two loops of `Start` -/

theorem runOptions_append_ok (pre rest : List StartServerOptions) (w w1 : World)
    (h : runOptions pre w = (.ok, w1)) :
    runOptions (pre ++ rest) w = runOptions rest w1 := by
  induction pre generalizing w with
  | nil =>
    simp only [runOptions, Prod.mk.injEq, true_and] at h
    simp [h]
  | cons op ops ih =>
    simp only [List.cons_append, runOptions] at h ⊢
    rcases hop : op w with ⟨o, v⟩
    rw [hop] at h
    cases o with
    | ok => simpa using ih v h
    | fail e => simp at h
    | panic => simp at h

theorem runOptions_first_failure (pre post : List StartServerOptions) (f : StartServerOptions)
    (w w1 w2 : World) (e : Error)
    (hpre : runOptions pre w = (.ok, w1)) (hf : f w1 = (.fail e, w2)) :
    runOptions (pre ++ f :: post) w = (.fail e, w2) := by
  rw [runOptions_append_ok pre (f :: post) w w1 hpre]
  simp [runOptions, hf]

theorem registerServices_append_ok (pre rest : List RegisterService) (g g1 : GServer)
    (h : registerServices pre g = (.ok, g1)) :
    registerServices (pre ++ rest) g = registerServices rest g1 := by
  induction pre generalizing g with
  | nil =>
    simp only [registerServices, Prod.mk.injEq, true_and] at h
    simp [h]
  | cons srv srvs ih =>
    simp only [List.cons_append, registerServices] at h ⊢
    rcases hsrv : srv g with ⟨o, v⟩
    rw [hsrv] at h
    cases o with
    | ok => simpa using ih v h
    | fail e => simp at h
    | panic => simp at h

theorem registerServices_first_failure (pre post : List RegisterService) (f : RegisterService)
    (g g1 g2 : GServer) (e : Error)
    (hpre : registerServices pre g = (.ok, g1)) (hf : f g1 = (.fail e, g2)) :
    registerServices (pre ++ f :: post) g = (.fail e, g2) := by
  rw [registerServices_append_ok pre (f :: post) g g1 hpre]
  simp [registerServices, hf]

theorem Start_of_option_failure (env : Env) (services : List RegisterService)
    (options : List StartServerOptions) (w w1 : World) (e : Error)
    (hcfg : w.srv.Config ≠ none) (h : runOptions options w = (.fail e, w1)) :
    Server.Start env services options w =
      (.fail (Error.wrap e (env.StringTags ["start server", "option error"])), w1) := by
  unfold Server.Start
  cases hc : w.srv.Config with
  | none => exact absurd hc hcfg
  | some cfg => simp [h]

/-- The options run by a frame-respecting list leave `S` and `Conn` alone. -/
theorem runOptions_frame (ops : List StartServerOptions)
    (hframe : ∀ op ∈ ops, ∀ v : World,
      (op v).2.srv.S = v.srv.S ∧ (op v).2.srv.Conn = v.srv.Conn) (w : World) :
    (runOptions ops w).2.srv.S = w.srv.S ∧ (runOptions ops w).2.srv.Conn = w.srv.Conn := by
  induction ops generalizing w with
  | nil => simp [runOptions]
  | cons op ops ih =>
    have hop := hframe op (List.mem_cons_self _ _) w
    have ih1 := ih (fun o ho v => hframe o (List.mem_cons_of_mem _ ho) v)
    simp only [runOptions]
    rcases hw : op w with ⟨o, v⟩
    rw [hw] at hop
    cases o with
    | ok =>
      have := ih1 v
      simp only at hop ⊢
      exact ⟨this.1.trans hop.1, this.2.trans hop.2⟩
    | fail e => simpa using hop
    | panic => simpa using hop

/-- The loop of `Stop` only appends to the trace, one stop per pool, in order. -/
theorem stopWorkerPools_eq (pools : List WorkerRef) (w : World) :
    stopWorkerPools pools w = { w with trace := w.trace ++ pools.map Event.poolStop } := by
  induction pools generalizing w with
  | nil => simp [stopWorkerPools]
  | cons p ps ih => simp [stopWorkerPools, ih, World.emit]

/-- The sibling path of `Stop`: with no listener bound, every pool is stopped. -/
theorem Stop_unbound_stops_every_pool (env : Env) (w : World) (hConn : w.srv.Conn = none)
    (p : WorkerRef) (hp : p ∈ w.srv.WorkerPools) :
    Event.poolStop p ∈ (Server.Stop env w).2.trace := by
  unfold Server.Stop
  by_cases hS : w.srv.S.isSome = true
  · simp [hS, World.emit, hConn, stopWorkerPools_eq, hp]
  · simp [hS, hConn, stopWorkerPools_eq, hp]

/-! ## Stop -/

/-- C1, evaluated on the code: the default server is started with one
pool-backed admission option, which creates and starts the worker pool 0, and is
then stopped.  `Stop` halts the instance, closes the listener and returns the
result of the close; the loop over `WorkerPools` is not reached and pool 0 is
never stopped. -/
theorem Stop_bound_listener_skips_worker_pools :
    (Server.Start envOk [] [Server.SetMiddlewarePoolWorkerOption envOk 4] createdServer).1 =
      .ok ∧
    (Server.Start envOk [] [Server.SetMiddlewarePoolWorkerOption envOk 4]
      createdServer).2.srv.WorkerPools = [0] ∧
    (Server.Stop envOk (Server.Start envOk [] [Server.SetMiddlewarePoolWorkerOption envOk 4]
      createdServer).2).1 = none ∧
    (Server.Stop envOk (Server.Start envOk [] [Server.SetMiddlewarePoolWorkerOption envOk 4]
      createdServer).2).2.trace =
      [Event.createWorker, Event.poolStart 0 4,
        Event.newServer [ServerOption.unaryPoolWorker 0], Event.listen "0.0.0.0",
        Event.serve { addr := "0.0.0.0" }, Event.logStarted "0.0.0.0" 10000 false,
        Event.gStop, Event.connClose { addr := "0.0.0.0" }] ∧
    Event.poolStop 0 ∉
      (Server.Stop envOk (Server.Start envOk [] [Server.SetMiddlewarePoolWorkerOption envOk 4]
        createdServer).2).2.trace := by
  refine ⟨?_, ?_, ?_, ?_, ?_⟩ <;>
    simp [Server.Start, Server.Stop, runOptions, registerServices,
      Server.SetMiddlewarePoolWorkerOption, CreateWorker, createdServer, envOk, World.emit,
      enableServiceDisconvery, serverHost, serverPort, NewServer,
      ServerOption.isUnaryInterceptor]

/-- C7: on a server that was never started (no server instance, no listener, no
worker pools) `Stop` returns no error and leaves the whole state, the record of
calls to collaborators included, as it was. -/
theorem Stop_never_started (env : Env) (w : World) (hS : w.srv.S = none)
    (hConn : w.srv.Conn = none) (hPools : w.srv.WorkerPools = []) :
    Server.Stop env w = (none, w) := by
  simp [Server.Stop, hS, hConn, hPools, stopWorkerPools]

/-- The statement of C7 on the default server, which was never started. -/
theorem Stop_never_started_witness :
    createdServer.srv.S = none ∧ createdServer.srv.Conn = none ∧
    createdServer.srv.WorkerPools = [] ∧
    Server.Stop envOk createdServer = (none, createdServer) :=
  ⟨rfl, rfl, rfl, Stop_never_started envOk createdServer rfl rfl rfl⟩

/-! ## The interceptor -/

/-- C2: when `QueueJob` returns the error `e`, the interceptor returns a nil
response and the error `e` wrapped with the tag of the middleware; the only
call it has made is the `QueueJob` call itself: nothing is received from the
result channel, nothing is logged, and the handler, which is only stored in the
job, plays no part in the result. -/
theorem interceptor_queue_error (env : Env) (workerPool : WorkerRef) (ctx : Context)
    (req : Payload) (info : UnaryServerInfo) (handler : UnaryHandler) (w : World)
    (cfg : ServerConfig) (e : Error) (hcfg : w.srv.Config = some cfg)
    (hq : env.queueJob w workerPool
        { name := "interceptor" ++ info.FullMethod, ctx := ctx, req := req,
          handler := handler, c := none }
        (millis cfg.ReadTimeout) = .error e) :
    interceptor env workerPool ctx req info handler w =
      (.returned none (some (Error.wrap e (env.StringTags ["pool worker middleware"]))),
        { w with trace := w.trace ++
            [Event.queueJob workerPool ("interceptor" ++ info.FullMethod)
              (millis cfg.ReadTimeout)] }) := by
  simp [interceptor, hcfg, hq, World.emit]

/-- The statement of C2 on a pool that refuses every job. -/
theorem interceptor_queue_error_witness :
    interceptor envBusy 0 11 22 { FullMethod := "/svc/Get" } echoHandler createdServer =
      (.returned none
          (some (Error.wrap (Error.ext 7) (envBusy.StringTags ["pool worker middleware"]))),
        { createdServer with trace := createdServer.trace ++
            [Event.queueJob 0 ("interceptor" ++ "/svc/Get") (millis readTimeout)] }) :=
  interceptor_queue_error envBusy 0 11 22 { FullMethod := "/svc/Get" } echoHandler
    createdServer
    { Host := serverHost, Port := serverPort,
      EnableServiceDiscovery := enableServiceDisconvery, ReadTimeout := readTimeout }
    (Error.ext 7) rfl rfl

/-- C3: when `QueueJob` succeeds and the pool delivers on the result channel the
outcome `(R, F)` of the handler on the context and request of the call, the
interceptor returns exactly `(R, F)`: the response as it is, the failure
unwrapped. -/
theorem interceptor_round_trip (env : Env) (workerPool : WorkerRef) (ctx : Context)
    (req : Payload) (info : UnaryServerInfo) (handler : UnaryHandler) (w : World)
    (cfg : ServerConfig) (R : Option Payload) (F : Option Error)
    (hcfg : w.srv.Config = some cfg)
    (hh : handler ctx req = { resp := R, err := F })
    (hq : env.queueJob w workerPool
        { name := "interceptor" ++ info.FullMethod, ctx := ctx, req := req,
          handler := handler, c := none }
        (millis cfg.ReadTimeout) = .ok (some (handler ctx req))) :
    (interceptor env workerPool ctx req info handler w).1 = .returned R F := by
  simp [interceptor, hcfg, hq, hh]

/-- The statement of C3 on a pool that runs the handler of the job. -/
theorem interceptor_round_trip_witness :
    echoHandler 11 22 = { resp := some 23, err := none } ∧
    (interceptor envOk 0 11 22 { FullMethod := "/svc/Get" } echoHandler createdServer).1 =
      .returned (some 23) none :=
  ⟨rfl, interceptor_round_trip envOk 0 11 22 { FullMethod := "/svc/Get" } echoHandler
    createdServer
    { Host := serverHost, Port := serverPort,
      EnableServiceDiscovery := enableServiceDisconvery, ReadTimeout := readTimeout }
    (some 23) none rfl rfl rfl⟩

/-! ## Lemmas on the options of `server.go` -/

theorem SetMiddlewarePoolWorkerOption_ok (env : Env) (maxWorkers : Int) (w v : World)
    (h : Server.SetMiddlewarePoolWorkerOption env maxWorkers w = (.ok, v)) :
    v = { srv := { w.srv with
            WorkerPools := w.srv.WorkerPools ++ [w.nextPool],
            ServerOptions := w.srv.ServerOptions ++ [ServerOption.unaryPoolWorker w.nextPool] },
          nextPool := w.nextPool + 1,
          trace := w.trace ++ [Event.createWorker, Event.poolStart w.nextPool maxWorkers] } := by
  unfold Server.SetMiddlewarePoolWorkerOption CreateWorker at h
  cases hc : env.createWorker w with
  | some err => simp [hc] at h
  | none =>
    simp only [hc] at h
    split at h
    · simp at h
    · simp only [Prod.mk.injEq, true_and] at h
      simp [← h, World.emit]

theorem SetMiddlewarePoolWorkerOption_fail (env : Env) (maxWorkers : Int) (w v : World)
    (e : Error) (h : Server.SetMiddlewarePoolWorkerOption env maxWorkers w = (.fail e, v)) :
    v.srv = w.srv ∧ ∃ evs, v.trace = w.trace ++ evs := by
  unfold Server.SetMiddlewarePoolWorkerOption CreateWorker at h
  cases hc : env.createWorker w with
  | some err =>
    simp only [hc, Prod.mk.injEq] at h
    exact ⟨by simp [← h.2, World.emit], [Event.createWorker], by simp [← h.2, World.emit]⟩
  | none =>
    simp only [hc] at h
    split at h
    · simp only [Prod.mk.injEq] at h
      exact ⟨by simp [← h.2, World.emit],
        [Event.createWorker, Event.poolStart w.nextPool maxWorkers],
        by simp [← h.2, World.emit]⟩
    · simp at h

theorem closure_fail (env : Env) (f : StartOption) (w v : World) (e : Error)
    (h : f.closure env w = (.fail e, v)) :
    v.srv = w.srv ∧ ∃ evs, v.trace = w.trace ++ evs := by
  cases f with
  | serviceDiscovery val =>
    simp only [StartOption.closure, Server.SetServiceDiscoveryOption] at h
    split at h <;> simp at h
  | tracer t => simp [StartOption.closure, Server.SetTracerOption] at h
  | middlewareTracer =>
    simp only [StartOption.closure, Server.SetMiddlewareTracerOption] at h
    split at h
    · simp only [Prod.mk.injEq] at h
      exact ⟨by rw [← h.2], [], by simp [← h.2]⟩
    · simp at h
  | middlewarePoolWorker m =>
    simp only [StartOption.closure] at h
    exact SetMiddlewarePoolWorkerOption_fail env m w v e h

theorem closure_ok (env : Env) (o : StartOption) (w v : World)
    (h : o.closure env w = (.ok, v)) :
    v.srv.S = w.srv.S ∧ v.srv.Conn = w.srv.Conn ∧
    v.nextPool = w.nextPool + poolOptions [o] ∧
    v.srv.WorkerPools = w.srv.WorkerPools ++ List.range' w.nextPool (poolOptions [o]) ∧
    (∃ evs, v.trace = w.trace ++ evs) ∧
    (∀ p ∈ List.range' w.nextPool (poolOptions [o]), ∃ m, Event.poolStart p m ∈ v.trace) := by
  cases o with
  | serviceDiscovery val =>
    simp only [StartOption.closure, Server.SetServiceDiscoveryOption] at h
    split at h
    · simp at h
    · simp only [Prod.mk.injEq, true_and] at h
      subst h
      simp [poolOptions]
  | tracer t =>
    simp only [StartOption.closure, Server.SetTracerOption, Prod.mk.injEq, true_and] at h
    subst h
    simp [poolOptions]
  | middlewareTracer =>
    simp only [StartOption.closure, Server.SetMiddlewareTracerOption] at h
    split at h
    · simp at h
    · simp only [Prod.mk.injEq, true_and] at h
      subst h
      simp [poolOptions]
  | middlewarePoolWorker m =>
    simp only [StartOption.closure] at h
    have hv := SetMiddlewarePoolWorkerOption_ok env m w v h
    subst hv
    simp [poolOptions]

theorem closures_ok (env : Env) (pre : List StartOption) (w w1 : World)
    (h : runOptions (pre.map (StartOption.closure env)) w = (.ok, w1)) :
    w1.srv.S = w.srv.S ∧ w1.srv.Conn = w.srv.Conn ∧
    w1.nextPool = w.nextPool + poolOptions pre ∧
    w1.srv.WorkerPools = w.srv.WorkerPools ++ List.range' w.nextPool (poolOptions pre) ∧
    (∃ evs, w1.trace = w.trace ++ evs) ∧
    (∀ p ∈ List.range' w.nextPool (poolOptions pre), ∃ m, Event.poolStart p m ∈ w1.trace) := by
  induction pre generalizing w with
  | nil =>
    simp only [List.map_nil, runOptions, Prod.mk.injEq, true_and] at h
    subst h
    simp [poolOptions]
  | cons o os ih =>
    simp only [List.map_cons, runOptions] at h
    rcases ho : o.closure env w with ⟨r, v⟩
    rw [ho] at h
    cases r with
    | fail e => simp at h
    | panic => simp at h
    | ok =>
      simp only at h
      obtain ⟨a1, a2, a3, a4, ⟨evs1, a5⟩, a6⟩ := closure_ok env o w v ho
      obtain ⟨b1, b2, b3, b4, ⟨evs2, b5⟩, b6⟩ := ih v h
      have hcount : poolOptions (o :: os) = poolOptions [o] + poolOptions os := by
        cases o <;> simp [poolOptions, Nat.add_comm]
      have hrange : List.range' w.nextPool (poolOptions (o :: os)) =
          List.range' w.nextPool (poolOptions [o]) ++
            List.range' (w.nextPool + poolOptions [o]) (poolOptions os) := by
        rw [hcount, List.range'_append_1, Nat.add_comm]
      refine ⟨b1.trans a1, b2.trans a2, ?_, ?_, ⟨evs1 ++ evs2, ?_⟩, ?_⟩
      · rw [b3, a3, hcount, Nat.add_assoc]
      · rw [b4, a4, a3, hrange, List.append_assoc]
      · rw [b5, a5, List.append_assoc]
      · intro p hp
        rw [hrange, List.mem_append] at hp
        rcases hp with hp | hp
        · obtain ⟨m, hm⟩ := a6 p hp
          exact ⟨m, by rw [b5]; exact List.mem_append_left _ hm⟩
        · rw [← a3] at hp
          exact b6 p hp

theorem closure_frame (env : Env) (o : StartOption) (v : World) :
    (o.closure env v).2.srv.S = v.srv.S ∧ (o.closure env v).2.srv.Conn = v.srv.Conn := by
  cases o with
  | serviceDiscovery val =>
    simp only [StartOption.closure, Server.SetServiceDiscoveryOption]
    split <;> simp
  | tracer t => simp [StartOption.closure, Server.SetTracerOption]
  | middlewareTracer =>
    simp only [StartOption.closure, Server.SetMiddlewareTracerOption]
    split <;> simp
  | middlewarePoolWorker m =>
    simp only [StartOption.closure, Server.SetMiddlewarePoolWorkerOption, CreateWorker]
    cases env.createWorker v with
    | some err => simp [World.emit]
    | none =>
      simp only
      split <;> simp [World.emit]

theorem poolWorkerOptions_ok (env : Env) (maxWs : List Int) (w w1 : World)
    (h : runOptions (maxWs.map (Server.SetMiddlewarePoolWorkerOption env)) w = (.ok, w1)) :
    w1.srv.WorkerPools = w.srv.WorkerPools ++ List.range' w.nextPool maxWs.length ∧
    w1.srv.ServerOptions = w.srv.ServerOptions ++
      (List.range' w.nextPool maxWs.length).map ServerOption.unaryPoolWorker ∧
    w1.nextPool = w.nextPool + maxWs.length := by
  induction maxWs generalizing w with
  | nil =>
    simp only [List.map_nil, runOptions, Prod.mk.injEq, true_and] at h
    subst h
    simp
  | cons m ms ih =>
    simp only [List.map_cons, runOptions] at h
    rcases ho : Server.SetMiddlewarePoolWorkerOption env m w with ⟨r, v⟩
    rw [ho] at h
    cases r with
    | fail e => simp at h
    | panic => simp at h
    | ok =>
      simp only at h
      have hv := SetMiddlewarePoolWorkerOption_ok env m w v ho
      obtain ⟨b1, b2, b3⟩ := ih v h
      subst hv
      simp only at b1 b2 b3
      refine ⟨?_, ?_, ?_⟩
      · rw [b1]; simp [List.range'_succ]
      · rw [b2]; simp [List.range'_succ]
      · rw [b3]; simp [Nat.add_assoc, Nat.add_comm 1]

/-- A successful `Start` leaves a server instance and a bound listener. -/
theorem Start_ok_serving (env : Env) (services : List RegisterService)
    (options : List StartServerOptions) (w w1 : World)
    (h : Server.Start env services options w = (.ok, w1)) :
    ∃ g l, w1.srv.S = some g ∧ w1.srv.Conn = some l := by
  unfold Server.Start at h
  cases hc : w.srv.Config with
  | none => simp [hc] at h
  | some cfg0 =>
    rcases ho : runOptions options w with ⟨r, v⟩
    cases r with
    | fail e => simp [hc, ho] at h
    | panic => simp [hc, ho] at h
    | ok =>
      cases hn : NewServer v.srv.ServerOptions with
      | none => simp [hc, ho, hn] at h
      | some g0 =>
        rcases hr : registerServices services g0 with ⟨r2, g1⟩
        cases r2 with
        | fail e => simp [hc, ho, hn, hr] at h
        | panic => simp [hc, ho, hn, hr] at h
        | ok =>
          simp only [hc, ho, hn, hr, World.emit] at h
          cases hc2 : v.srv.Config with
          | none => simp [hc2] at h
          | some cfg =>
            simp only [hc2] at h
            split at h
            · simp at h
            · simp only [Prod.mk.injEq, true_and] at h
              subst h
              split <;> simp

/-- What `Stop` does on a server with an instance and a bound listener. -/
theorem Stop_serving (env : Env) (w : World) (g : GServer) (l : Listener)
    (hS : w.srv.S = some g) (hConn : w.srv.Conn = some l) :
    Server.Stop env w =
      (env.close (w.emit .gStop) l,
        { w with trace := w.trace ++ [Event.gStop, Event.connClose l] }) := by
  simp [Server.Stop, hS, hConn, World.emit]

/-! ## Start -/

/-- C5: for a server with a configuration and an option list `pre ++ f :: post`
in which the options of `pre` all return nil, run one after the other, and `f`
then returns the error `e`, `Start` returns `e` wrapped with the tags of the
option error, and the state it leaves is exactly the state `f` left: the options
of `post` are not run, no server is instantiated, no service is registered and
no listener is bound.  When the options run leave `S` and `Conn` alone, as the
options of `server.go` do, `S` and `Conn` are as before `Start`. -/
theorem Start_first_failing_option (env : Env) (services : List RegisterService)
    (pre post : List StartServerOptions) (f : StartServerOptions) (w w1 w2 : World)
    (e : Error) (hcfg : w.srv.Config ≠ none) (hpre : runOptions pre w = (.ok, w1))
    (hf : f w1 = (.fail e, w2)) :
    Server.Start env services (pre ++ f :: post) w =
      (.fail (Error.wrap e (env.StringTags ["start server", "option error"])), w2) ∧
    ((∀ op ∈ pre ++ [f], ∀ v : World,
        (op v).2.srv.S = v.srv.S ∧ (op v).2.srv.Conn = v.srv.Conn) →
      w2.srv.S = w.srv.S ∧ w2.srv.Conn = w.srv.Conn) := by
  refine ⟨Start_of_option_failure env services _ w w2 e hcfg
    (runOptions_first_failure pre post f w w1 w2 e hpre hf), ?_⟩
  intro hframe
  have h1 := runOptions_frame pre
    (fun op hop v => hframe op (List.mem_append_left _ hop) v) w
  have h2 := hframe f (by simp) w1
  rw [hpre] at h1
  rw [hf] at h2
  exact ⟨h2.1.trans h1.1, h2.2.trans h1.2⟩

/-- The statement of C5 on three options of which the second fails. -/
theorem Start_first_failing_option_witness :
    Server.Start envOk [goodService "a"]
        ([Server.SetServiceDiscoveryOption true] ++ Server.SetMiddlewareTracerOption ::
          [Server.SetMiddlewarePoolWorkerOption envOk 4]) createdServer =
      (.fail (Error.wrap (Error.new "option SetTracerOption must be set first")
          (envOk.StringTags ["start server", "option error"])),
        (Server.SetServiceDiscoveryOption true createdServer).2) ∧
    (Server.SetServiceDiscoveryOption true createdServer).2.srv.S = createdServer.srv.S ∧
    (Server.SetServiceDiscoveryOption true createdServer).2.srv.Conn = createdServer.srv.Conn :=
  have h := Start_first_failing_option envOk [goodService "a"]
    [Server.SetServiceDiscoveryOption true] [Server.SetMiddlewarePoolWorkerOption envOk 4]
    Server.SetMiddlewareTracerOption createdServer
    (Server.SetServiceDiscoveryOption true createdServer).2
    (Server.SetServiceDiscoveryOption true createdServer).2
    (Error.new "option SetTracerOption must be set first") (by simp [createdServer]) rfl rfl
  ⟨h.1, h.2 (by
    intro op hop v
    simp only [List.singleton_append, List.mem_cons, List.mem_singleton, List.not_mem_nil,
      or_false] at hop
    rcases hop with rfl | rfl
    · exact closure_frame envOk (.serviceDiscovery true) v
    · exact closure_frame envOk .middlewareTracer v)⟩

/-- C6, as stated, fails: two pool-backed admission options succeed and leave
two unary interceptors in `ServerOptions`; `g.NewServer` panics on the second,
so `Start` panics before any registration is run, and the error of
`badService`, a registration that fails on every server, is never returned. -/
theorem Start_two_interceptors_panics_before_registration :
    runOptions
        [Server.SetMiddlewarePoolWorkerOption envOk 4,
          Server.SetMiddlewarePoolWorkerOption envOk 2] createdServer =
      (.ok,
        { srv := { createdServer.srv with
            WorkerPools := [0, 1],
            ServerOptions := [ServerOption.unaryPoolWorker 0, ServerOption.unaryPoolWorker 1] },
          nextPool := 2,
          trace := [Event.createWorker, Event.poolStart 0 4, Event.createWorker,
            Event.poolStart 1 2] }) ∧
    (badService = fun g => (.fail (Error.ext 5), g)) ∧
    Server.Start envOk [badService]
        [Server.SetMiddlewarePoolWorkerOption envOk 4,
          Server.SetMiddlewarePoolWorkerOption envOk 2] createdServer =
      (.panic,
        { srv := { createdServer.srv with
            WorkerPools := [0, 1],
            ServerOptions := [ServerOption.unaryPoolWorker 0, ServerOption.unaryPoolWorker 1] },
          nextPool := 2,
          trace := [Event.createWorker, Event.poolStart 0 4, Event.createWorker,
            Event.poolStart 1 2,
            Event.newServer
              [ServerOption.unaryPoolWorker 0, ServerOption.unaryPoolWorker 1]] }) := by
  refine ⟨?_, rfl, ?_⟩ <;>
    simp [Server.Start, runOptions, Server.SetMiddlewarePoolWorkerOption, CreateWorker,
      createdServer, envOk, World.emit, NewServer, ServerOption.isUnaryInterceptor]

/-- C6, amended: when the options all succeed, leaving the state `w1`, and
`g.NewServer` returns the server `g0` for the options accumulated (they hold at
most one unary interceptor), and in the list `pre ++ f :: post` of registrations
those of `pre` succeed one after the other on `g0` and `f` then fails with `e`,
`Start` returns `e` wrapped with the tags of the registration error; the
registrations of `post` are not run, and the only call made after the options is
the creation of the server: the listener is not bound (`Conn` is what the
options left, and there is no `listen` call) and no serve path is launched. -/
theorem Start_first_failing_registration (env : Env) (options : List StartServerOptions)
    (pre post : List RegisterService) (f : RegisterService) (w w1 : World)
    (g0 g1 g2 : GServer) (e : Error) (hcfg : w.srv.Config ≠ none)
    (hopts : runOptions options w = (.ok, w1))
    (hnew : NewServer w1.srv.ServerOptions = some g0)
    (hpre : registerServices pre g0 = (.ok, g1))
    (hf : f g1 = (.fail e, g2)) :
    Server.Start env (pre ++ f :: post) options w =
      (.fail (Error.wrap e (env.StringTags ["start server", "register service error"])),
        { w1 with
          srv := { w1.srv with S := some g2 },
          trace := w1.trace ++ [Event.newServer w1.srv.ServerOptions] }) ∧
    (Server.Start env (pre ++ f :: post) options w).2.srv.Conn = w1.srv.Conn ∧
    (Server.Start env (pre ++ f :: post) options w).2.trace =
      w1.trace ++ [Event.newServer w1.srv.ServerOptions] := by
  have hreg := registerServices_first_failure pre post f g0 g1 g2 e hpre hf
  have hstart : Server.Start env (pre ++ f :: post) options w =
      (.fail (Error.wrap e (env.StringTags ["start server", "register service error"])),
        { w1 with
          srv := { w1.srv with S := some g2 },
          trace := w1.trace ++ [Event.newServer w1.srv.ServerOptions] }) := by
    unfold Server.Start
    cases hc : w.srv.Config with
    | none => exact absurd hc hcfg
    | some cfg => simp [hopts, hnew, hreg, World.emit]
  rw [hstart]
  exact ⟨rfl, rfl, rfl⟩

/-- The amended statement of C6 on one pool-backed option and three
registrations of which the second fails. -/
theorem Start_first_failing_registration_witness :
    Server.Start envOk ([goodService "a"] ++ badService :: [goodService "b"])
        [Server.SetMiddlewarePoolWorkerOption envOk 4] createdServer =
      (.fail (Error.wrap (Error.ext 5)
          (envOk.StringTags ["start server", "register service error"])),
        { srv := { createdServer.srv with
            S := some
              { opts := [ServerOption.unaryPoolWorker 0], services := ["a"], reflection := false },
            WorkerPools := [0],
            ServerOptions := [ServerOption.unaryPoolWorker 0] },
          nextPool := 1,
          trace := [Event.createWorker, Event.poolStart 0 4,
            Event.newServer [ServerOption.unaryPoolWorker 0]] }) ∧
    (Server.Start envOk ([goodService "a"] ++ badService :: [goodService "b"])
        [Server.SetMiddlewarePoolWorkerOption envOk 4] createdServer).2.srv.Conn = none ∧
    (Server.Start envOk ([goodService "a"] ++ badService :: [goodService "b"])
        [Server.SetMiddlewarePoolWorkerOption envOk 4] createdServer).2.trace =
      [Event.createWorker, Event.poolStart 0 4] ++
        [Event.newServer [ServerOption.unaryPoolWorker 0]] :=
  have h := Start_first_failing_registration envOk
    [Server.SetMiddlewarePoolWorkerOption envOk 4]
    [goodService "a"] [goodService "b"] badService createdServer
    (Server.SetMiddlewarePoolWorkerOption envOk 4 createdServer).2
    { opts := [ServerOption.unaryPoolWorker 0], services := [], reflection := false }
    { opts := [ServerOption.unaryPoolWorker 0], services := ["a"], reflection := false }
    { opts := [ServerOption.unaryPoolWorker 0], services := ["a"], reflection := false }
    (Error.ext 5) (by simp [createdServer]) rfl rfl rfl rfl
  ⟨h.1, h.2.1, h.2.2⟩

/-- C4, as stated, fails: on the default server, whose `TraceClient` is unset
and for which no tracer option is installed at all, installing the
tracing-middleware option does not fail.  The call returns its closure and
leaves the state, the record of calls included, as it was: nothing is checked
and no error is reported before `Start` is invoked.  The configuration error is
deferred: it is the result of `Start`, wrapped with the tags of the option loop
of `Start`, which is where the closure is run. -/
theorem SetMiddlewareTracerOption_not_checked_at_install :
    createdServer.srv.TraceClient = none ∧
    (Server.SetMiddlewareTracerOption.call createdServer).2 = createdServer ∧
    Server.Start envOk [] [(Server.SetMiddlewareTracerOption.call createdServer).1]
        (Server.SetMiddlewareTracerOption.call createdServer).2 =
      (.fail (Error.wrap (Error.new "option SetTracerOption must be set first")
        (envOk.StringTags ["start server", "option error"])), createdServer) := by
  refine ⟨rfl, rfl, ?_⟩
  simp [Server.Start, runOptions, Server.SetMiddlewareTracerOption.call,
    Server.SetMiddlewareTracerOption, createdServer]

/-- C4, amended: installing the tracing-middleware option never fails and
changes nothing, whatever the state: the call yields a closure.  The check is
made when the closure runs, which is in the option loop of `Start`.  If the
options before it leave `TraceClient` unset, the closure returns the error
"option SetTracerOption must be set first" and leaves the state, `ServerOptions`
included, as it was; `Start` returns this error wrapped, in the state the
earlier options left, having instantiated no server and run no later option. -/
theorem SetMiddlewareTracerOption_without_tracer (env : Env)
    (services : List RegisterService) (pre post : List StartServerOptions) (w w1 : World)
    (hcfg : w.srv.Config ≠ none) (hpre : runOptions pre w = (.ok, w1))
    (htc : w1.srv.TraceClient = none) :
    (Server.SetMiddlewareTracerOption.call w).2 = w ∧
    (Server.SetMiddlewareTracerOption.call w).1 w1 =
      (.fail (Error.new "option SetTracerOption must be set first"), w1) ∧
    Server.Start env services
        (pre ++ (Server.SetMiddlewareTracerOption.call w).1 :: post)
        (Server.SetMiddlewareTracerOption.call w).2 =
      (.fail (Error.wrap (Error.new "option SetTracerOption must be set first")
        (env.StringTags ["start server", "option error"])), w1) := by
  have hf : Server.SetMiddlewareTracerOption w1 =
      (.fail (Error.new "option SetTracerOption must be set first"), w1) := by
    simp [Server.SetMiddlewareTracerOption, htc]
  exact ⟨rfl, hf, Start_of_option_failure env services _ w w1 _ hcfg
    (runOptions_first_failure pre post _ w w1 w1 _ hpre hf)⟩

/-- The amended statement of C4 on the default server, with one option before
the tracing-middleware option and one after it. -/
theorem SetMiddlewareTracerOption_without_tracer_witness :
    (Server.SetMiddlewareTracerOption.call createdServer).2 = createdServer ∧
    (Server.SetMiddlewareTracerOption.call createdServer).1
        (Server.SetServiceDiscoveryOption true createdServer).2 =
      (.fail (Error.new "option SetTracerOption must be set first"),
        (Server.SetServiceDiscoveryOption true createdServer).2) ∧
    Server.Start envOk [goodService "a"]
        ([Server.SetServiceDiscoveryOption true] ++
          (Server.SetMiddlewareTracerOption.call createdServer).1 ::
            [Server.SetTracerOption (some { Tracer := 7 })])
        (Server.SetMiddlewareTracerOption.call createdServer).2 =
      (.fail (Error.wrap (Error.new "option SetTracerOption must be set first")
        (envOk.StringTags ["start server", "option error"])),
        (Server.SetServiceDiscoveryOption true createdServer).2) :=
  SetMiddlewareTracerOption_without_tracer envOk [goodService "a"]
    [Server.SetServiceDiscoveryOption true] [Server.SetTracerOption (some { Tracer := 7 })]
    createdServer (Server.SetServiceDiscoveryOption true createdServer).2
    (by simp [createdServer]) rfl rfl

/-- C9, as stated, fails: a pool-backed admission option that precedes the
failing option has created and started pool 0, and after `Start` has returned
the error the pool is still in `WorkerPools` and has not been stopped. -/
theorem Start_option_failure_leaves_started_pool :
    createdServer.srv.WorkerPools = [] ∧
    Server.Start envOk []
        [Server.SetMiddlewarePoolWorkerOption envOk 4, Server.SetMiddlewareTracerOption]
        createdServer =
      (.fail (Error.wrap (Error.new "option SetTracerOption must be set first")
          (envOk.StringTags ["start server", "option error"])),
        { srv := { createdServer.srv with
            WorkerPools := [0], ServerOptions := [ServerOption.unaryPoolWorker 0] },
          nextPool := 1,
          trace := [Event.createWorker, Event.poolStart 0 4] }) := by
  refine ⟨rfl, ?_⟩
  simp [Server.Start, runOptions, Server.SetMiddlewarePoolWorkerOption, CreateWorker,
    Server.SetMiddlewareTracerOption, createdServer, envOk, World.emit]

/-- C9, amended: when, among options of `server.go`, those of `pre` succeed and
`f` then fails with `e`, `Start` returns `e` wrapped and has instantiated no
server and bound no listener (`S` and `Conn` are as before `Start`), but it
undoes nothing: `WorkerPools` is the list before `Start` followed by one pool
for each pool-backed admission option of `pre`, and each of these pools has
been started. -/
theorem Start_option_failure_keeps_pools (env : Env) (services : List RegisterService)
    (pre : List StartOption) (f : StartOption) (post : List StartServerOptions)
    (w w1 w2 : World) (e : Error) (hcfg : w.srv.Config ≠ none)
    (hpre : runOptions (pre.map (StartOption.closure env)) w = (.ok, w1))
    (hf : f.closure env w1 = (.fail e, w2)) :
    (Server.Start env services (pre.map (StartOption.closure env) ++ f.closure env :: post)
        w).1 = .fail (Error.wrap e (env.StringTags ["start server", "option error"])) ∧
    (Server.Start env services (pre.map (StartOption.closure env) ++ f.closure env :: post)
        w).2.srv.S = w.srv.S ∧
    (Server.Start env services (pre.map (StartOption.closure env) ++ f.closure env :: post)
        w).2.srv.Conn = w.srv.Conn ∧
    (Server.Start env services (pre.map (StartOption.closure env) ++ f.closure env :: post)
        w).2.srv.WorkerPools =
      w.srv.WorkerPools ++ List.range' w.nextPool (poolOptions pre) ∧
    (∀ p ∈ List.range' w.nextPool (poolOptions pre), ∃ m, Event.poolStart p m ∈
      (Server.Start env services
        (pre.map (StartOption.closure env) ++ f.closure env :: post) w).2.trace) := by
  rw [Start_of_option_failure env services _ w w2 e hcfg
    (runOptions_first_failure _ post _ w w1 w2 e hpre hf)]
  obtain ⟨a1, a2, _, a4, _, a6⟩ := closures_ok env pre w w1 hpre
  obtain ⟨b1, evs, b2⟩ := closure_fail env f w1 w2 e hf
  refine ⟨rfl, ?_, ?_, ?_, ?_⟩
  · simp only [b1, a1]
  · simp only [b1, a2]
  · simp only [b1, a4]
  · intro p hp
    obtain ⟨m, hm⟩ := a6 p hp
    exact ⟨m, by simp only [b2]; exact List.mem_append_left _ hm⟩

/-- The amended statement of C9 on two pool-backed options followed by a failing option. -/
theorem Start_option_failure_keeps_pools_witness :
    (Server.Start envOk []
        ([StartOption.middlewarePoolWorker 4, StartOption.tracer none,
            StartOption.middlewarePoolWorker 2].map (StartOption.closure envOk) ++
          StartOption.middlewareTracer.closure envOk :: []) createdServer).2.srv.WorkerPools =
      createdServer.srv.WorkerPools ++ List.range' createdServer.nextPool
        (poolOptions [StartOption.middlewarePoolWorker 4, StartOption.tracer none,
            StartOption.middlewarePoolWorker 2]) :=
  (Start_option_failure_keeps_pools envOk []
    [StartOption.middlewarePoolWorker 4, StartOption.tracer none,
      StartOption.middlewarePoolWorker 2]
    StartOption.middlewareTracer [] createdServer
    (runOptions ([StartOption.middlewarePoolWorker 4, StartOption.tracer none,
      StartOption.middlewarePoolWorker 2].map (StartOption.closure envOk)) createdServer).2
    (runOptions ([StartOption.middlewarePoolWorker 4, StartOption.tracer none,
      StartOption.middlewarePoolWorker 2].map (StartOption.closure envOk)) createdServer).2
    (Error.new "option SetTracerOption must be set first")
    (by simp [createdServer]) rfl rfl).2.2.2.1

/-- C10: applying `k` pool-backed admission options that all succeed appends to
`WorkerPools` exactly `k` pools, pairwise distinct, and to `ServerOptions`
exactly `k` interceptors, the i-th of them bound to the i-th new pool, after the
entries that were there, which are kept.  An application whose pool creation
fails, or whose pool start fails, returns that error and appends nothing to
either list. -/
theorem SetMiddlewarePoolWorkerOption_repeated (env : Env) :
    (∀ (maxWs : List Int) (w w1 : World),
      runOptions (maxWs.map (Server.SetMiddlewarePoolWorkerOption env)) w = (.ok, w1) →
      w1.srv.WorkerPools = w.srv.WorkerPools ++ List.range' w.nextPool maxWs.length ∧
      w1.srv.ServerOptions = w.srv.ServerOptions ++
        (List.range' w.nextPool maxWs.length).map ServerOption.unaryPoolWorker ∧
      (List.range' w.nextPool maxWs.length).length = maxWs.length ∧
      (List.range' w.nextPool maxWs.length).Nodup) ∧
    (∀ (maxWorkers : Int) (w : World) (err : Error), env.createWorker w = some err →
      (Server.SetMiddlewarePoolWorkerOption env maxWorkers w).1 = .fail err ∧
      (Server.SetMiddlewarePoolWorkerOption env maxWorkers w).2.srv.WorkerPools =
        w.srv.WorkerPools ∧
      (Server.SetMiddlewarePoolWorkerOption env maxWorkers w).2.srv.ServerOptions =
        w.srv.ServerOptions) ∧
    (∀ (maxWorkers : Int) (w : World) (err : Error), env.createWorker w = none →
      env.startServer
        { srv := w.srv, nextPool := w.nextPool + 1, trace := w.trace ++ [Event.createWorker] }
        w.nextPool maxWorkers = some err →
      (Server.SetMiddlewarePoolWorkerOption env maxWorkers w).1 = .fail err ∧
      (Server.SetMiddlewarePoolWorkerOption env maxWorkers w).2.srv.WorkerPools =
        w.srv.WorkerPools ∧
      (Server.SetMiddlewarePoolWorkerOption env maxWorkers w).2.srv.ServerOptions =
        w.srv.ServerOptions) := by
  refine ⟨?_, ?_, ?_⟩
  · intro maxWs w w1 h
    obtain ⟨h1, h2, _⟩ := poolWorkerOptions_ok env maxWs w w1 h
    exact ⟨h1, h2, List.length_range' _ _ _, List.nodup_range' _ _⟩
  · intro m w err hc
    simp [Server.SetMiddlewarePoolWorkerOption, CreateWorker, hc, World.emit]
  · intro m w err hc hs
    simp [Server.SetMiddlewarePoolWorkerOption, CreateWorker, hc, hs, World.emit]

/-- The statement of C10 on three successful installations, a failed creation and a failed start. -/
theorem SetMiddlewarePoolWorkerOption_repeated_witness :
    ((runOptions ([4, 8, 2].map (Server.SetMiddlewarePoolWorkerOption envOk))
        servingWithPool).2.srv.WorkerPools = [0] ++ [1, 2, 3] ∧
      (runOptions ([4, 8, 2].map (Server.SetMiddlewarePoolWorkerOption envOk))
        servingWithPool).2.srv.ServerOptions =
        [ServerOption.unaryPoolWorker 0] ++
          [ServerOption.unaryPoolWorker 1, ServerOption.unaryPoolWorker 2,
            ServerOption.unaryPoolWorker 3]) ∧
    ((Server.SetMiddlewarePoolWorkerOption envNoCreate 4 servingWithPool).1 =
        .fail (Error.ext 2) ∧
      (Server.SetMiddlewarePoolWorkerOption envNoCreate 4 servingWithPool).2.srv.WorkerPools =
        [0]) ∧
    ((Server.SetMiddlewarePoolWorkerOption envNoStart 4 servingWithPool).1 =
        .fail (Error.ext 3) ∧
      (Server.SetMiddlewarePoolWorkerOption envNoStart 4 servingWithPool).2.srv.WorkerPools =
        [0]) :=
  have h1 := (SetMiddlewarePoolWorkerOption_repeated envOk).1 [4, 8, 2] servingWithPool
    (runOptions ([4, 8, 2].map (Server.SetMiddlewarePoolWorkerOption envOk))
      servingWithPool).2 rfl
  have h2 := (SetMiddlewarePoolWorkerOption_repeated envNoCreate).2.1 4 servingWithPool
    (Error.ext 2) rfl
  have h3 := (SetMiddlewarePoolWorkerOption_repeated envNoStart).2.2 4 servingWithPool
    (Error.ext 3) rfl rfl
  ⟨⟨h1.1, h1.2.1⟩, ⟨h2.1, h2.2.1⟩, ⟨h3.1, h3.2.1⟩⟩

/-! ## Stop, twice -/

/-- C8, as stated, fails: the default server is started with no option and no
service, then stopped; the first `Stop` returns no error.  The second `Stop`
is not a no-op: it halts the server instance again and closes the listener
again, and, the listener being closed already, it returns the error of that
close. -/
theorem Stop_twice_not_noop :
    (Server.Start envOk [] [] createdServer).1 = .ok ∧
    (Server.Stop envOk (Server.Start envOk [] [] createdServer).2).1 = none ∧
    (Server.Stop envOk
      (Server.Stop envOk (Server.Start envOk [] [] createdServer).2).2).1 =
        some (Error.ext 1) ∧
    (Server.Stop envOk
      (Server.Stop envOk (Server.Start envOk [] [] createdServer).2).2).2.trace =
      (Server.Stop envOk (Server.Start envOk [] [] createdServer).2).2.trace ++
        [Event.gStop, Event.connClose { addr := "0.0.0.0" }] := by
  refine ⟨?_, ?_, ?_, ?_⟩ <;>
    simp [Server.Start, Server.Stop, runOptions, registerServices, createdServer, envOk,
      World.emit, enableServiceDisconvery, serverHost, NewServer,
      ServerOption.isUnaryInterceptor]

/-- C8, amended: `Stop` keeps no memory of having run.  On a server that was
started, a first `Stop` leaves the fields of the server as they were, and a
second `Stop` begins like the first: it halts the server instance again, calls
`Close` on the listener again, and returns what this second `Close` returns. -/
theorem Stop_twice_repeats (env : Env) (services : List RegisterService)
    (options : List StartServerOptions) (w w1 : World)
    (hstart : Server.Start env services options w = (.ok, w1)) :
    ∃ l, w1.srv.Conn = some l ∧
      (Server.Stop env w1).2.srv = w1.srv ∧
      (Server.Stop env (Server.Stop env w1).2).2.srv = w1.srv ∧
      (∃ rest, (Server.Stop env (Server.Stop env w1).2).2.trace =
        (Server.Stop env w1).2.trace ++ [Event.gStop, Event.connClose l] ++ rest) ∧
      (Server.Stop env (Server.Stop env w1).2).1 =
        env.close ((Server.Stop env w1).2.emit .gStop) l := by
  obtain ⟨g, l, hS, hConn⟩ := Start_ok_serving env services options w w1 hstart
  have h1 := Stop_serving env w1 g l hS hConn
  have h2 := Stop_serving env (Server.Stop env w1).2 g l (by rw [h1]; exact hS)
    (by rw [h1]; exact hConn)
  refine ⟨l, hConn, by rw [h1], by rw [h2, h1], ⟨[], ?_⟩, by rw [h2]⟩
  rw [h2]
  simp

/-- The amended statement of C8 on the default server, started with no option. -/
theorem Stop_twice_repeats_witness :
    ∃ l, (Server.Start envOk [] [] createdServer).2.srv.Conn = some l ∧
      (Server.Stop envOk (Server.Start envOk [] [] createdServer).2).2.srv =
        (Server.Start envOk [] [] createdServer).2.srv ∧
      (Server.Stop envOk
        (Server.Stop envOk (Server.Start envOk [] [] createdServer).2).2).2.srv =
        (Server.Start envOk [] [] createdServer).2.srv ∧
      (∃ rest, (Server.Stop envOk
          (Server.Stop envOk (Server.Start envOk [] [] createdServer).2).2).2.trace =
        (Server.Stop envOk (Server.Start envOk [] [] createdServer).2).2.trace ++
          [Event.gStop, Event.connClose l] ++ rest) ∧
      (Server.Stop envOk
        (Server.Stop envOk (Server.Start envOk [] [] createdServer).2).2).1 =
        envOk.close ((Server.Stop envOk
          (Server.Start envOk [] [] createdServer).2).2.emit .gStop) l :=
  Stop_twice_repeats envOk [] [] createdServer (Server.Start envOk [] [] createdServer).2
    rfl

end Grpc
